import Mathlib

/-!
Shallow embedding of the break-check rate limiter (Rust sources) in Lean 4.

Conventions of the embedding:
* Machine integers are modelled as `Nat`; wrapping casts are explicit
  (`% 2^64`, `% 2^128`), saturating operations are explicit (`satAdd32`,
  truncated `Nat` subtraction models `saturating_sub`).
* Instants (`SystemTime`) are modelled as milliseconds since the Unix
  epoch, a `Nat`; hence "clock at or after the epoch" is built into the
  type (the Rust `to_unix_millis` unwrap would panic before the epoch).
* The `f64` weighting multiplication of the estimator
  (`(prev as f64 * (rem as f64 / win as f64)).round() as u32`) is
  modelled in exact real (rational) arithmetic with rounding half away
  from zero, which for the nonnegative values at hand is
  `roundNat a b = (2*a + b) / (2*b)` for the quotient `a / b`.
  The spec prescribes a real-valued domain for this product.
* Fallible steps of the Rust code (panicking `%`/`/` with a zero divisor)
  are modelled with `Option`: `none` is a panic.
* Resource keys and patterns are modelled as `List Char` (Rust `String`
  bytes), redis keys likewise; the redis database is a pair of finite
  partial maps (value map, TTL map), each a function `List Char → Option Nat`.
-/

/-- Largest value of a Rust `u32`. -/
def u32Max : Nat := 2 ^ 32 - 1

/-- Modulus of a Rust `u64` (wrapping casts reduce modulo this). -/
def u64Mod : Nat := 2 ^ 64

/-- Modulus of a Rust `u128` (wrapping arithmetic reduces modulo this). -/
def u128Mod : Nat := 2 ^ 128

/-- Rust `u32::saturating_add`. -/
def satAdd32 (a b : Nat) : Nat := min (a + b) u32Max

/-- Rounding of the exact quotient `a / b` (for `b > 0`) to the nearest
natural, halves away from zero: `round(a/b) = ⌊(2a + b) / (2b)⌋`.
This models Rust `f64::round` applied to the nonnegative product
`prev * (rem / win)` computed in a real-valued domain. -/
def roundNat (a b : Nat) : Nat := (2 * a + b) / (2 * b)

/-- The argument record of `SlidingWindow::try_acquire`
(`AcquireAttempt` in `src/common/algo.rs`); `window_ms` is
`window_duration.as_millis()`. -/
structure AcquireAttempt where
  tokens_to_acquire : Nat
  max_tokens_per_window : Nat
  window_ms : Nat
  previous_window_requests : Nat
  current_window_requests : Nat
deriving DecidableEq, Repr

/-- Result of `SlidingWindow::try_acquire`:
`Ok((remaining, reset_after))` or `Err(RateLimitExceeded(reset_after))`.
Instants are unix milliseconds. -/
inductive TryAcquireResult where
  | ok (remaining : Nat) (reset_after : Nat)
  | rateLimitExceeded (reset_after : Nat)
deriving DecidableEq, Repr

/-- The `reset_after` instant carried by either outcome. -/
def TryAcquireResult.resetAfter : TryAcquireResult → Nat
  | .ok _ r => r
  | .rateLimitExceeded r => r

/-- Embedding of `SlidingWindow::try_acquire` (`src/common/algo.rs`,
lines 61–97). `nowMs` is `to_unix_millis(self.clock.now())`.
`none` models the Rust panic of `unix_now % window_ms` when
`window_ms = 0`. The `as u64` cast of `remaining_window_time`
in `Duration::from_millis(remaining_window_time as u64)` wraps,
hence the `% u64Mod`. -/
def SlidingWindow.try_acquire (a : AcquireAttempt) (nowMs : Nat) :
    Option TryAcquireResult :=
  let window_ms := a.window_ms
  if window_ms = 0 then none
  else
    let time_in_current_window := nowMs % window_ms
    let remaining_window_time := window_ms - time_in_current_window
    let reset_after := nowMs + remaining_window_time % u64Mod
    if a.max_tokens_per_window
        < satAdd32 a.current_window_requests a.tokens_to_acquire then
      some (.rateLimitExceeded reset_after)
    else
      let used := satAdd32 a.current_window_requests
        (min (roundNat (a.previous_window_requests * remaining_window_time)
          window_ms) u32Max)
      let possible_used := satAdd32 used a.tokens_to_acquire
      if a.max_tokens_per_window < possible_used then
        some (.rateLimitExceeded reset_after)
      else
        some (.ok (a.max_tokens_per_window - possible_used) reset_after)

example :
    SlidingWindow.try_acquire ⟨1, 10, 60000, 8, 5⟩ 1761948330000
      = some (.ok 0 1761948360000) := by decide

example :
    SlidingWindow.try_acquire ⟨1, 10, 60000, 10, 9⟩ 1761948359999
      = some (.ok 0 1761948360000) := by decide

example :
    SlidingWindow.try_acquire ⟨1, 10, 60000, 10, 0⟩ 1761948300000
      = some (.rateLimitExceeded 1761948360000) := by decide

/-- The rounded previous-window contribution never exceeds
`previous_window_requests` when the remaining window time is at most the
window length. -/
theorem roundNat_mul_le (p r w : Nat) (h : r ≤ w) (hw : 0 < w) :
    roundNat (p * r) w ≤ p := by
  unfold roundNat
  have h2 : 2 * (p * r) + w < (p + 1) * (2 * w) := by nlinarith
  have h3 := (Nat.div_lt_iff_lt_mul (by omega : 0 < 2 * w)).mpr h2
  omega

/-- C1: if the current-window count plus the requested tokens (saturating
u32 addition) exceeds the per-window maximum, `try_acquire` fails with
`RateLimitExceeded(reset_after)`, for every value of
`previous_window_requests`. -/
theorem tryAcquire_hard_cap_denies (a : AcquireAttempt) (nowMs : Nat)
    (hw : a.window_ms ≠ 0)
    (h : a.max_tokens_per_window
      < satAdd32 a.current_window_requests a.tokens_to_acquire) :
    SlidingWindow.try_acquire a nowMs
      = some (.rateLimitExceeded
          (nowMs + (a.window_ms - nowMs % a.window_ms) % u64Mod)) := by
  simp [SlidingWindow.try_acquire, hw, h]

theorem tryAcquire_hard_cap_denies_witness :
    SlidingWindow.try_acquire ⟨1, 1, 60000, 7, 1⟩ 0
      = some (.rateLimitExceeded (0 + (60000 - 0 % 60000) % u64Mod)) :=
  tryAcquire_hard_cap_denies ⟨1, 1, 60000, 7, 1⟩ 0 (by decide) (by decide)

/-- C2: on every admission the returned `remaining` equals
`max_tokens_per_window - (used + tokens_to_acquire)` (truncated
subtraction) with
`used = current_window_requests + round(previous_window_requests * remaining_window_ms / window_ms)`,
and hence `remaining + tokens_to_acquire ≤ max_tokens_per_window`. -/
theorem tryAcquire_admit_remaining (a : AcquireAttempt) (nowMs : Nat)
    (ht : a.tokens_to_acquire ≤ u32Max)
    (hm : a.max_tokens_per_window ≤ u32Max)
    (hp : a.previous_window_requests ≤ u32Max)
    (hc : a.current_window_requests ≤ u32Max)
    (remaining reset : Nat)
    (h : SlidingWindow.try_acquire a nowMs = some (.ok remaining reset)) :
    remaining = a.max_tokens_per_window
      - (a.current_window_requests
          + roundNat
              (a.previous_window_requests * (a.window_ms - nowMs % a.window_ms))
              a.window_ms
          + a.tokens_to_acquire)
    ∧ remaining + a.tokens_to_acquire ≤ a.max_tokens_per_window := by
  by_cases hw : a.window_ms = 0
  · simp [SlidingWindow.try_acquire, hw] at h
  · have hwpos : 0 < a.window_ms := Nat.pos_of_ne_zero hw
    have hW : roundNat
        (a.previous_window_requests * (a.window_ms - nowMs % a.window_ms))
        a.window_ms ≤ a.previous_window_requests :=
      roundNat_mul_le _ _ _ (Nat.sub_le _ _) hwpos
    simp only [SlidingWindow.try_acquire, hw, if_false] at h
    split_ifs at h with hcap hused
    · simp at h
    · simp at h
    · simp only [Option.some.injEq, TryAcquireResult.ok.injEq] at h
      obtain ⟨hrem, -⟩ := h
      subst hrem
      simp only [satAdd32, u32Max] at hused ⊢
      simp only [u32Max] at hW ht hm hp hc
      omega

theorem tryAcquire_admit_remaining_witness :
    (1 : Nat) = 10
      - (0 + roundNat (8 * (60000 - 1761948300000 % 60000)) 60000 + 1)
    ∧ 1 + 1 ≤ 10 :=
  tryAcquire_admit_remaining ⟨1, 10, 60000, 8, 0⟩ 1761948300000
    (by decide) (by decide) (by decide) (by decide) 1 1761948360000 (by decide)

/-- C3 (amended): for a window of at least one second whose length in
milliseconds fits a u64, every outcome (admit or deny) carries a
`reset_after` strictly after `now` and at most `now + window`. -/
theorem tryAcquire_reset_after_bounds (a : AcquireAttempt) (nowMs : Nat)
    (h1 : 1000 ≤ a.window_ms) (h2 : a.window_ms < u64Mod) :
    ∃ r, SlidingWindow.try_acquire a nowMs = some r
      ∧ nowMs < r.resetAfter ∧ r.resetAfter ≤ nowMs + a.window_ms := by
  have hw : a.window_ms ≠ 0 := by omega
  have hmod : nowMs % a.window_ms < a.window_ms :=
    Nat.mod_lt _ (by omega)
  have hmm : (a.window_ms - nowMs % a.window_ms) % u64Mod
      = a.window_ms - nowMs % a.window_ms :=
    Nat.mod_eq_of_lt (by omega)
  simp only [SlidingWindow.try_acquire, hw, if_false]
  split_ifs with hcap hused
  · exact ⟨_, rfl, by simp [TryAcquireResult.resetAfter, hmm]; omega⟩
  · exact ⟨_, rfl, by simp [TryAcquireResult.resetAfter, hmm]; omega⟩
  · exact ⟨_, rfl, by simp [TryAcquireResult.resetAfter, hmm]; omega⟩

theorem tryAcquire_reset_after_bounds_witness :
    ∃ r, SlidingWindow.try_acquire ⟨1, 10, 60000, 0, 0⟩ 0 = some r
      ∧ 0 < r.resetAfter ∧ r.resetAfter ≤ 0 + 60000 :=
  tryAcquire_reset_after_bounds ⟨1, 10, 60000, 0, 0⟩ 0 (by decide) (by decide)

/-- C3 counterexample: with a window of 18446744073709552000 ms
(window duration ≥ 1 s, clock after the epoch at 384 ms) the remaining
window time is exactly 2^64 ms, the `as u64` cast in
`Duration::from_millis(remaining_window_time as u64)` wraps it to 0, and
the admitted result carries `reset_after = now` — not strictly greater
than `now` as the claim requires. -/
theorem tryAcquire_reset_after_cex :
    SlidingWindow.try_acquire ⟨1, 1, 18446744073709552000, 0, 0⟩ 384
      = some (.ok 0 384)
    ∧ (TryAcquireResult.ok 0 384).resetAfter ≤ 384
    ∧ 1000 ≤ 18446744073709552000 :=
  ⟨by decide, by decide, by decide⟩

/-- C7: for all u32 inputs whose window lasts at least one second and a
clock at or after the epoch (instants are nonnegative by construction),
`try_acquire` is total: it returns an admit or deny result. -/
theorem tryAcquire_total (a : AcquireAttempt) (nowMs : Nat)
    (h1 : 1000 ≤ a.window_ms)
    (ht : a.tokens_to_acquire ≤ u32Max)
    (hm : a.max_tokens_per_window ≤ u32Max)
    (hp : a.previous_window_requests ≤ u32Max)
    (hc : a.current_window_requests ≤ u32Max) :
    (SlidingWindow.try_acquire a nowMs).isSome := by
  have hw : a.window_ms ≠ 0 := by omega
  simp only [SlidingWindow.try_acquire, hw, if_false]
  split_ifs <;> simp

theorem tryAcquire_total_witness :
    (SlidingWindow.try_acquire ⟨1, 10, 60000, 4294967295, 4294967295⟩
      1761948330000).isSome :=
  tryAcquire_total ⟨1, 10, 60000, 4294967295, 4294967295⟩ 1761948330000
    (by decide) (by decide) (by decide) (by decide) (by decide)

/-- Policy parameters (`PolicyDefinition` in `src/config/config.rs`). -/
structure PolicyDefinition where
  max_tokens : Nat
  window_secs : Nat
deriving DecidableEq, Repr

/-- Kind of a rule pattern (`PatternType` in `src/config/config.rs`). -/
inductive PatternType where
  | exactMatch
  | prefixMatch
deriving DecidableEq, Repr

/-- A policy rule (`PolicyRule` in `src/config/config.rs`); the pattern is
the byte string of the Rust `String`. -/
structure PolicyRule where
  pattern : List Char
  pattern_type : PatternType
  policy : PolicyDefinition
  priority : Nat
deriving DecidableEq, Repr

/-- Whether a rule matches a resource key (the filter closure in
`RedisRateLimit::acquire`, `src/db/redis/store.rs` lines 90–95):
`Exact` is byte equality, `Prefix` is `key.starts_with(pattern)`. -/
def PolicyRule.matches (rule : PolicyRule) (key : List Char) : Bool :=
  match rule.pattern_type with
  | .exactMatch => rule.pattern == key
  | .prefixMatch => rule.pattern.isPrefixOf key

/-- Rust `Iterator::max_by_key` on the priority of the rules: a left fold
in which a later element supersedes the accumulator unless the
accumulator's key is strictly greater ("if several elements are equally
maximum, the last element is returned"). -/
def maxByPriority (l : List PolicyRule) : Option PolicyRule :=
  l.foldl
    (fun acc r =>
      match acc with
      | none => some r
      | some m => if m.priority > r.priority then some m else some r)
    none

/-- Policy resolution in `RedisRateLimit::acquire`
(`src/db/redis/store.rs` lines 87–98): filter the matching rules, take
`max_by_key(priority)`, fall back to the default policy. -/
def resolvePolicy (policies : List PolicyRule) (default_policy : PolicyDefinition)
    (key : List Char) : PolicyDefinition :=
  match maxByPriority (policies.filter (PolicyRule.matches · key)) with
  | some rule => rule.policy
  | none => default_policy

/-- Characterization of `maxByPriority` on a nonempty list: it returns an
element of the list that has the greatest priority, and every element
occurring after it has a strictly smaller priority (last-max semantics of
Rust `max_by_key`). -/
theorem maxByPriority_spec (l : List PolicyRule) (hl : l ≠ []) :
    ∃ l1 c l2, l = l1 ++ c :: l2
      ∧ maxByPriority l = some c
      ∧ (∀ x ∈ l1, x.priority ≤ c.priority)
      ∧ (∀ x ∈ l2, x.priority < c.priority) := by
  induction l using List.reverseRecOn with
  | nil => exact absurd rfl hl
  | append_singleton l x ih =>
    rcases eq_or_ne l [] with hnil | hne
    · subst hnil
      exact ⟨[], x, [], by simp, rfl, by simp, by simp⟩
    · obtain ⟨l1, c, l2, hdec, hmax, hle, hlt⟩ := ih hne
      have hfold : maxByPriority (l ++ [x])
          = if c.priority > x.priority then some c else some x := by
        simp only [maxByPriority, List.foldl_append, List.foldl_cons,
          List.foldl_nil]
        simp only [maxByPriority] at hmax
        rw [hmax]
      by_cases hcx : c.priority > x.priority
      · refine ⟨l1, c, l2 ++ [x], ?_, ?_, hle, ?_⟩
        · rw [hdec]; simp
        · rw [hfold, if_pos hcx]
        · intro y hy
          rcases List.mem_append.mp hy with hy | hy
          · exact hlt y hy
          · simp at hy; subst hy; omega
      · refine ⟨l1 ++ c :: l2, x, [], ?_, ?_, ?_, by simp⟩
        · rw [hdec]
        · rw [hfold, if_neg hcx]
        · intro y hy
          rcases List.mem_append.mp hy with hy | hy
          · exact le_trans (hle y hy) (by omega)
          · rcases List.mem_cons.mp hy with hy | hy
            · subst hy; omega
            · exact le_trans (le_of_lt (hlt y hy)) (by omega)

/-- C4 (amended): the resolved policy is the default when no rule
matches; otherwise it is the policy of a matching rule of maximal
priority, where ties among matching rules are broken by the LAST
occurrence in the source sequence (every matching rule after the chosen
one has strictly smaller priority). -/
theorem resolvePolicy_last_max (policies : List PolicyRule)
    (default_policy : PolicyDefinition) (key : List Char) :
    (policies.filter (PolicyRule.matches · key) = []
        ∧ resolvePolicy policies default_policy key = default_policy)
    ∨ (∃ l1 c l2, policies.filter (PolicyRule.matches · key) = l1 ++ c :: l2
        ∧ resolvePolicy policies default_policy key = c.policy
        ∧ (∀ x ∈ l1, x.priority ≤ c.priority)
        ∧ (∀ x ∈ l2, x.priority < c.priority)) := by
  rcases eq_or_ne (policies.filter (PolicyRule.matches · key)) [] with hnil | hne
  · left
    refine ⟨hnil, ?_⟩
    simp [resolvePolicy, hnil, maxByPriority]
  · right
    obtain ⟨l1, c, l2, hdec, hmax, hle, hlt⟩ := maxByPriority_spec _ hne
    exact ⟨l1, c, l2, hdec, by simp [resolvePolicy, hmax], hle, hlt⟩

theorem resolvePolicy_last_max_witness :
    (([] : List PolicyRule).filter (PolicyRule.matches · ['a']) = []
        ∧ resolvePolicy [] ⟨10, 60⟩ ['a'] = ⟨10, 60⟩)
    ∨ (∃ l1 c l2,
        ([] : List PolicyRule).filter (PolicyRule.matches · ['a'])
          = l1 ++ c :: l2
        ∧ resolvePolicy [] ⟨10, 60⟩ ['a'] = c.policy
        ∧ (∀ x ∈ l1, x.priority ≤ c.priority)
        ∧ (∀ x ∈ l2, x.priority < c.priority)) :=
  resolvePolicy_last_max [] ⟨10, 60⟩ ['a']

/-- C4 counterexample: two rules that both match the key `"k"` exactly
and share the largest priority 5; the claim says the FIRST one (policy
`⟨1, 7⟩`) is chosen, but the resolver returns the policy of the SECOND
(`⟨2, 7⟩`), because Rust `max_by_key` keeps the last maximal element. -/
theorem resolvePolicy_first_tie_cex :
    resolvePolicy
      [⟨['k'], .exactMatch, ⟨1, 7⟩, 5⟩, ⟨['k'], .exactMatch, ⟨2, 7⟩, 5⟩]
      ⟨10, 60⟩ ['k'] = ⟨2, 7⟩
    ∧ (⟨2, 7⟩ : PolicyDefinition) ≠ ⟨1, 7⟩ := by
  refine ⟨by decide, by decide⟩

/-- C10: a rule with the empty pattern and pattern type `Prefix` matches
every resource key; whenever such a rule is in the policy set the filter
step retains at least that rule, so the resolver returns the policy of
some matching rule whose priority is at least the empty-pattern rule's
priority — the default policy fallback branch is never taken. -/
theorem emptyPrefixRule_shadows_default (P : PolicyDefinition) (prio : Nat)
    (policies : List PolicyRule) (default_policy : PolicyDefinition)
    (key : List Char)
    (hmem : (⟨[], .prefixMatch, P, prio⟩ : PolicyRule) ∈ policies) :
    PolicyRule.matches ⟨[], .prefixMatch, P, prio⟩ key = true
    ∧ ∃ c ∈ policies.filter (PolicyRule.matches · key),
        prio ≤ c.priority
        ∧ resolvePolicy policies default_policy key = c.policy := by
  have hmatch : PolicyRule.matches ⟨[], .prefixMatch, P, prio⟩ key = true := by
    simp [PolicyRule.matches, List.isPrefixOf]
  refine ⟨hmatch, ?_⟩
  have hmemf : (⟨[], .prefixMatch, P, prio⟩ : PolicyRule)
      ∈ policies.filter (PolicyRule.matches · key) :=
    List.mem_filter.mpr ⟨hmem, hmatch⟩
  have hne : policies.filter (PolicyRule.matches · key) ≠ [] := by
    intro hnil
    rw [hnil] at hmemf
    exact absurd hmemf (List.not_mem_nil _)
  obtain ⟨l1, c, l2, hdec, hmax, hle, hlt⟩ := maxByPriority_spec _ hne
  refine ⟨c, ?_, ?_, by simp [resolvePolicy, hmax]⟩
  · rw [hdec]; simp
  · rw [hdec] at hmemf
    rcases List.mem_append.mp hmemf with hy | hy
    · exact hle _ hy
    · rcases List.mem_cons.mp hy with hy | hy
      · rw [← hy]
      · exact le_of_lt (hlt _ hy)

theorem emptyPrefixRule_shadows_default_witness :
    PolicyRule.matches ⟨[], .prefixMatch, ⟨3, 30⟩, 2⟩ ['z'] = true
    ∧ ∃ c ∈ ([⟨[], .prefixMatch, ⟨3, 30⟩, 2⟩] : List PolicyRule).filter
          (PolicyRule.matches · ['z']),
        2 ≤ c.priority
        ∧ resolvePolicy [⟨[], .prefixMatch, ⟨3, 30⟩, 2⟩] ⟨10, 60⟩ ['z']
            = c.policy :=
  emptyPrefixRule_shadows_default ⟨3, 30⟩ 2 [⟨[], .prefixMatch, ⟨3, 30⟩, 2⟩]
    ⟨10, 60⟩ ['z'] (by simp)

/-- Totality helper: whenever the window length is nonzero the estimator
returns a result. -/
theorem tryAcquire_isSome (a : AcquireAttempt) (nowMs : Nat)
    (hw : a.window_ms ≠ 0) :
    (SlidingWindow.try_acquire a nowMs).isSome := by
  simp only [SlidingWindow.try_acquire, hw, if_false]
  split_ifs <;> simp

/-- State of the redis database: value and TTL (seconds) per key, `none`
when the key is absent. -/
structure StoreState where
  values : List Char → Option Nat
  ttls : List Char → Option Nat

/-- The empty redis database. -/
def emptyStore : StoreState := ⟨fun _ => none, fun _ => none⟩

/-- The `format_key!` macro of `src/db/redis/store.rs`:
`"{key}.rate_limit.window.{window}"`. -/
def formatKey (key : List Char) (window : Nat) : List Char :=
  key ++ ".rate_limit.window.".toList ++ Nat.toDigits 10 window

/-- The `previous_window = current_window - 1` computation of
`src/db/redis/store.rs` line 110: an unsigned u128 subtraction, which in
release builds wraps modulo `2^128` (and in debug builds panics) when
`current_window = 0`. -/
def previousWindowIndex (current : Nat) : Nat :=
  (current + (u128Mod - 1)) % u128Mod

/-- The lua SCRIPT of `src/db/redis/store.rs` (lines 69–82): `INCRBY`
the key by `increment`, `EXPIRE` it to `ttl`, return
`new_value - increment` (the value before the increment; an absent key
counts as 0). Returns the updated database and the script's return
value. -/
def scriptIncr (st : StoreState) (key : List Char) (increment ttl : Nat) :
    StoreState × Nat :=
  let new_value := (st.values key).getD 0 + increment
  (⟨fun k => if k = key then some new_value else st.values k,
    fun k => if k = key then some ttl else st.ttls k⟩,
   new_value - increment)

/-- Store-level acquire errors (`AcquireErr` in `src/db`): the variants
used by `store.rs` and matched by `server.rs`. -/
inductive AcquireErr where
  | rateLimitExceeded (reset_after : Nat)
  | timeout
  | redisError
deriving DecidableEq, Repr

/-- Admission payload (`TokensRemaining` in `src/db/rate.rs`). -/
structure TokensRemaining where
  remaining : Nat
  reset_after : Nat
deriving DecidableEq, Repr

/-- The outcome translation at the end of `RedisRateLimit::acquire`
(`src/db/redis/store.rs` lines 152–160). -/
def toAcquireResult : TryAcquireResult → Except AcquireErr TokensRemaining
  | .ok remaining reset => .ok ⟨remaining, reset⟩
  | .rateLimitExceeded reset => .error (.rateLimitExceeded reset)

/-- Embedding of `RedisRateLimit::acquire` (`src/db/redis/store.rs`
lines 86–168) in a run without backend timeouts or redis failures:
resolve the policy, compute the window keys, run the increment script on
the current-window key with TTL `window_secs * 2` (a wrapping u64
product), read the previous-window counter (0 when absent), and feed the
estimator. The two backend calls are issued concurrently in the source;
they touch distinct keys, so the `GET` is modelled as a read of the
pre-increment database. `none` models the division-by-zero panic of
`now / window_ms` when `window_secs = 0`. -/
def RedisRateLimit.acquire (policies : List PolicyRule)
    (default_policy : PolicyDefinition) (resource_key : List Char)
    (tokens_to_acquire : Nat) (nowMs : Nat) (st : StoreState) :
    Option (Except AcquireErr TokensRemaining × StoreState) :=
  let policy := resolvePolicy policies default_policy resource_key
  let window_ms := policy.window_secs * 1000
  if window_ms = 0 then none
  else
    let current_window := nowMs / window_ms
    let previous_window := previousWindowIndex current_window
    let current_key := formatKey resource_key current_window
    let previous_key := formatKey resource_key previous_window
    let incr := scriptIncr st current_key tokens_to_acquire
      ((policy.window_secs * 2) % u64Mod)
    let current := incr.2
    let previous := (st.values previous_key).getD 0
    let attempt : AcquireAttempt :=
      ⟨tokens_to_acquire, policy.max_tokens, window_ms, previous, current⟩
    (SlidingWindow.try_acquire attempt nowMs).map
      (fun r => (toAcquireResult r, incr.1))

/-- C5: every store-level acquire (for a resolved policy with
`1 ≤ window_secs < 2^63`) adds `tokens` to the counter at
`"<key>.rate_limit.window.<now_ms / window_ms>"`, sets that key's TTL to
`2 * window_secs`, and leaves every other key unchanged — and it does so
in the admit and in the deny outcome alike (the returned database `st1`
is the same in both); the estimator is fed the counter value BEFORE the
increment (`prior`). -/
theorem acquire_increments_before_decision (policies : List PolicyRule)
    (d : PolicyDefinition) (key : List Char) (tokens nowMs : Nat)
    (st : StoreState) (policy : PolicyDefinition) (wms : Nat)
    (ck : List Char) (prior : Nat) (st1 : StoreState)
    (hpol : policy = resolvePolicy policies d key)
    (hwms : wms = policy.window_secs * 1000)
    (hck : ck = formatKey key (nowMs / wms))
    (hprior : prior = (st.values ck).getD 0)
    (hst1 : st1 = (scriptIncr st ck tokens
      ((policy.window_secs * 2) % u64Mod)).1)
    (hw1 : 1 ≤ policy.window_secs) (hw2 : policy.window_secs < 2 ^ 63) :
    ∃ r,
      SlidingWindow.try_acquire
        ⟨tokens, policy.max_tokens, wms,
         (st.values (formatKey key (previousWindowIndex (nowMs / wms)))).getD 0,
         prior⟩ nowMs = some r
      ∧ RedisRateLimit.acquire policies d key tokens nowMs st
          = some (toAcquireResult r, st1)
      ∧ st1.values ck = some (prior + tokens)
      ∧ st1.ttls ck = some (2 * policy.window_secs)
      ∧ (∀ k, k ≠ ck → st1.values k = st.values k ∧ st1.ttls k = st.ttls k) := by
  subst hpol hwms hck hprior hst1
  have hwne : (resolvePolicy policies d key).window_secs * 1000 ≠ 0 :=
    Nat.mul_ne_zero (by omega) (by omega)
  have hs := tryAcquire_isSome
    ⟨tokens, (resolvePolicy policies d key).max_tokens,
      (resolvePolicy policies d key).window_secs * 1000,
      (st.values (formatKey key (previousWindowIndex
        (nowMs / ((resolvePolicy policies d key).window_secs * 1000))))).getD 0,
      (st.values (formatKey key
        (nowMs / ((resolvePolicy policies d key).window_secs * 1000)))).getD 0⟩
    nowMs hwne
  obtain ⟨r, hr⟩ := Option.isSome_iff_exists.mp hs
  refine ⟨r, hr, ?_, ?_, ?_, ?_⟩
  · simp only [RedisRateLimit.acquire, hwne, if_false]
    have hcur : (scriptIncr st
        (formatKey key
          (nowMs / ((resolvePolicy policies d key).window_secs * 1000)))
        tokens (((resolvePolicy policies d key).window_secs * 2) % u64Mod)).2
        = (st.values (formatKey key
            (nowMs / ((resolvePolicy policies d key).window_secs * 1000)))).getD
          0 := by
      simp [scriptIncr]
    rw [hcur, hr]
    rfl
  · simp [scriptIncr]
  · have httl : ((resolvePolicy policies d key).window_secs * 2) % u64Mod
        = 2 * (resolvePolicy policies d key).window_secs := by
      simp only [u64Mod]
      omega
    simp [scriptIncr, httl]
  · intro k hk
    simp [scriptIncr, hk]

theorem acquire_increments_before_decision_witness :
    ∃ r,
      SlidingWindow.try_acquire
        ⟨1, (resolvePolicy [] ⟨10, 60⟩ ['k']).max_tokens, 60000,
         (emptyStore.values (formatKey ['k']
           (previousWindowIndex (60000 / 60000)))).getD 0,
         (emptyStore.values (formatKey ['k'] (60000 / 60000))).getD 0⟩
        60000 = some r
      ∧ RedisRateLimit.acquire [] ⟨10, 60⟩ ['k'] 1 60000 emptyStore
          = some (toAcquireResult r,
              (scriptIncr emptyStore (formatKey ['k'] (60000 / 60000)) 1
                (((resolvePolicy [] ⟨10, 60⟩ ['k']).window_secs * 2)
                  % u64Mod)).1)
      ∧ (scriptIncr emptyStore (formatKey ['k'] (60000 / 60000)) 1
          (((resolvePolicy [] ⟨10, 60⟩ ['k']).window_secs * 2)
            % u64Mod)).1.values (formatKey ['k'] (60000 / 60000))
          = some ((emptyStore.values (formatKey ['k'] (60000 / 60000))).getD 0
              + 1)
      ∧ (scriptIncr emptyStore (formatKey ['k'] (60000 / 60000)) 1
          (((resolvePolicy [] ⟨10, 60⟩ ['k']).window_secs * 2)
            % u64Mod)).1.ttls (formatKey ['k'] (60000 / 60000))
          = some (2 * (resolvePolicy [] ⟨10, 60⟩ ['k']).window_secs)
      ∧ (∀ k, k ≠ formatKey ['k'] (60000 / 60000) →
          (scriptIncr emptyStore (formatKey ['k'] (60000 / 60000)) 1
            (((resolvePolicy [] ⟨10, 60⟩ ['k']).window_secs * 2)
              % u64Mod)).1.values k = emptyStore.values k
          ∧ (scriptIncr emptyStore (formatKey ['k'] (60000 / 60000)) 1
              (((resolvePolicy [] ⟨10, 60⟩ ['k']).window_secs * 2)
                % u64Mod)).1.ttls k = emptyStore.ttls k) :=
  acquire_increments_before_decision [] ⟨10, 60⟩ ['k'] 1 60000 emptyStore
    (resolvePolicy [] ⟨10, 60⟩ ['k']) 60000 (formatKey ['k'] (60000 / 60000))
    ((emptyStore.values (formatKey ['k'] (60000 / 60000))).getD 0)
    ((scriptIncr emptyStore (formatKey ['k'] (60000 / 60000)) 1
      (((resolvePolicy [] ⟨10, 60⟩ ['k']).window_secs * 2) % u64Mod)).1)
    rfl (by decide) rfl rfl rfl (by decide) (by decide)

/-- C9: at any call with `now_ms < window_ms` the current window index is
0 and `previous_window = current_window - 1` underflows: the u128
subtraction wraps to `2^128 - 1` (in debug builds it panics), so the
previous-window `GET` targets the nonexistent window `2^128 - 1` rather
than a guarded `count = 0` read. Concretely at `now_ms = 500` with a
1-second window the index read is `u128Mod - 1`. -/
theorem previousWindow_underflows_at_epoch :
    previousWindowIndex (500 / (1 * 1000)) = u128Mod - 1
    ∧ u128Mod - 1 = 340282366920938463463374607431768211455 :=
  ⟨by decide, by decide⟩

/-- RPC status (`tonic::Status` as used by `src/server.rs`). -/
inductive Status where
  | invalidArgument (msg : String)
  | deadlineExceeded (msg : String)
  | unavailable (msg : String)
deriving DecidableEq, Repr

/-- The RPC reply (`AcquireResponse` in the proto): `remaining` is an
`i32`, `reset_after` an `i64` of unix milliseconds. -/
structure AcquireResponse where
  allowed : Bool
  remaining : Int
  reset_after : Int
deriving DecidableEq, Repr

/-- Rust `x as i32` for an unsigned value: reduce modulo `2^32`,
reinterpret as two's complement. -/
def u32AsI32 (n : Nat) : Int :=
  if n % 2 ^ 32 < 2 ^ 31 then ((n % 2 ^ 32 : Nat) : Int)
  else ((n % 2 ^ 32 : Nat) : Int) - 2 ^ 32

/-- Rust `x as i64` for an unsigned value: reduce modulo `2^64`,
reinterpret as two's complement. -/
def uAsI64 (n : Nat) : Int :=
  if n % 2 ^ 64 < 2 ^ 63 then ((n % 2 ^ 64 : Nat) : Int)
  else ((n % 2 ^ 64 : Nat) : Int) - 2 ^ 64

/-- A backend as the RPC handler sees it: the store-level acquire of the
validated key and token count, transforming the shared database. The
handler (`src/server.rs`) is oblivious to how the outcome was produced,
so timeouts and redis failures are possible backend outcomes here. -/
def Backend : Type :=
  List Char → Nat → StoreState → Except AcquireErr TokensRemaining × StoreState

/-- Embedding of `RateLimiterImpl::acquire` (`src/server.rs` lines
21–68): validate `tokens > 0` then `!key.is_empty()` (in that order,
before any backend call), run the backend on `tokens as u32`, and map
the outcome: admit to `allowed = true`, `RateLimitExceeded` to a
SUCCESSFUL reply with `allowed = false, remaining = 0`, `Timeout` to
`DeadlineExceeded`, `RedisError` to `Unavailable`. Returns the reply or
status together with the (possibly updated) database. -/
def serverAcquire (backend : Backend) (key : List Char) (tokens : Int)
    (st : StoreState) : Except Status AcquireResponse × StoreState :=
  if tokens ≤ 0 then
    (.error (.invalidArgument "Tokens to acquire must be greater than zero"),
      st)
  else if key.isEmpty then
    (.error (.invalidArgument "Key must not be empty"), st)
  else
    match backend key ((tokens % (2 ^ 32 : Int)).toNat) st with
    | (.ok tr, st2) =>
        (.ok ⟨true, u32AsI32 tr.remaining, uAsI64 tr.reset_after⟩, st2)
    | (.error (.rateLimitExceeded reset), st2) =>
        (.ok ⟨false, 0, uAsI64 reset⟩, st2)
    | (.error .timeout, st2) =>
        (.error (.deadlineExceeded "Rate limit acquisition timed out"), st2)
    | (.error .redisError, st2) =>
        (.error (.unavailable "Failed to acquire rate limit"), st2)

/-- C6: for a validated call (`tokens > 0`, nonempty key), a
`RateLimitExceeded` backend outcome yields a SUCCESSFUL reply with
`allowed = false` and `remaining = 0` (never an RPC error), a `Timeout`
yields status `DeadlineExceeded`, and a `RedisError` yields status
`Unavailable`. -/
theorem serverAcquire_outcome_mapping (backend : Backend) (key : List Char)
    (tokens : Int) (st : StoreState) (ht : 0 < tokens) (hk : key ≠ []) :
    (∀ reset st2,
      backend key ((tokens % (2 ^ 32 : Int)).toNat) st
          = (.error (.rateLimitExceeded reset), st2) →
      serverAcquire backend key tokens st = (.ok ⟨false, 0, uAsI64 reset⟩, st2))
    ∧ (∀ st2,
      backend key ((tokens % (2 ^ 32 : Int)).toNat) st
          = (.error .timeout, st2) →
      serverAcquire backend key tokens st
        = (.error (.deadlineExceeded "Rate limit acquisition timed out"), st2))
    ∧ (∀ st2,
      backend key ((tokens % (2 ^ 32 : Int)).toNat) st
          = (.error .redisError, st2) →
      serverAcquire backend key tokens st
        = (.error (.unavailable "Failed to acquire rate limit"), st2)) := by
  have h1 : ¬ tokens ≤ 0 := by omega
  have h2 : key.isEmpty = false := by
    cases key with
    | nil => exact absurd rfl hk
    | cons c cs => rfl
  refine ⟨?_, ?_, ?_⟩
  · intro reset st2 hb
    simp only [serverAcquire, h1, if_false, h2, Bool.false_eq_true, hb]
  · intro st2 hb
    simp only [serverAcquire, h1, if_false, h2, Bool.false_eq_true, hb]
  · intro st2 hb
    simp only [serverAcquire, h1, if_false, h2, Bool.false_eq_true, hb]

theorem serverAcquire_outcome_mapping_witness :
    serverAcquire (fun _ _ st => (.error (.rateLimitExceeded 77), st))
      ['k'] 1 emptyStore
      = (.ok ⟨false, 0, uAsI64 77⟩, emptyStore) :=
  (serverAcquire_outcome_mapping
    (fun _ _ st => (.error (.rateLimitExceeded 77), st)) ['k'] 1 emptyStore
    (by decide) (by decide)).1 77 emptyStore rfl

/-- C8 (amended): `tokens ≤ 0` is rejected first with
"Tokens to acquire must be greater than zero"; an empty key is rejected
with "Key must not be empty" when `tokens > 0`; in both cases the error
is produced before any backend operation — the database is returned
unchanged for EVERY backend. -/
theorem serverAcquire_validation (backend : Backend) (key : List Char)
    (tokens : Int) (st : StoreState) :
    (tokens ≤ 0 → serverAcquire backend key tokens st
      = (.error
          (.invalidArgument "Tokens to acquire must be greater than zero"),
        st))
    ∧ (0 < tokens → key = [] → serverAcquire backend key tokens st
      = (.error (.invalidArgument "Key must not be empty"), st)) := by
  constructor
  · intro h
    simp [serverAcquire, h]
  · intro h1 h2
    subst h2
    have h3 : ¬ tokens ≤ 0 := by omega
    simp [serverAcquire, h3]

theorem serverAcquire_validation_witness :
    serverAcquire (fun _ _ st => (.error .timeout, st)) ['k'] 0 emptyStore
      = (.error
          (.invalidArgument "Tokens to acquire must be greater than zero"),
        emptyStore) :=
  (serverAcquire_validation (fun _ _ st => (.error .timeout, st)) ['k'] 0
    emptyStore).1 (by decide)

/-- C8 counterexample: at `tokens = 0` with the empty key, the key IS
empty, yet the reply is the tokens message (the tokens check runs
first), not "Key must not be empty" as the claim's key clause states. -/
theorem serverAcquire_validation_order_cex :
    serverAcquire (fun _ _ st => (.error .timeout, st)) [] 0 emptyStore
      = (.error
          (.invalidArgument "Tokens to acquire must be greater than zero"),
        emptyStore)
    ∧ ("Tokens to acquire must be greater than zero" : String)
        ≠ "Key must not be empty" :=
  ⟨rfl, by decide⟩
